import Mathlib

set_option maxHeartbeats 1000000
set_option linter.unnecessarySeqFocus false

/-!
# Shallow embedding of `src/consumer/consumer.go` (package `consumer`)

The Go file implements an SQS-backed event source `SQSSource` with:

* `Consume` — a background loop: while not `closed`, call `sqs.GetMessages()`,
  run `processMessage` on each returned message, then `wg.Wait()` before the
  next poll; on exit, `close(out)`.
* `processMessage` — `json.Unmarshal(*msg.Body)` into `domain.Events`
  (on error: log and return), read the `ApproximateReceiveCount` attribute
  (default `"0"` when absent, dereferencing the attribute pointer when
  present), build an `entity.Events` row from `*msg.MessageId`, call
  `insertMessage` (on error: log and proceed), then build a `domain.Event`,
  `wg.Add(1)`, and send the event on the output channel.
* `insertMessage` — a gorm upsert (`clause.OnConflict{UpdateAll: true}`) of
  the row; on error the error is returned.
* `Processed` — `defer wg.Done()`; if the event's `OriginalEvent` is an
  `*sqs.Message`, delete it from the queue (on failure: log and return the
  error; on success: log and return nil); otherwise log a warning and
  return nil.
* `Close` — set `closed = true`, `wg.Wait()`, return nil.

The embedding represents the mutable state (`closed`, the `sync.WaitGroup`
counter, the database contents, the external SQS queue, the output channel
contents) as an explicit `Sys` record, together with a `trace` of observable
actions (log calls, persistence attempts, `wg.Add`/`wg.Done`, emissions,
deletions).  External collaborators are parameters: `decode` stands for
`json.Unmarshal`, `insertRes` for the gorm call's success/failure,
`deleteRes` for `sqs.DeleteMessage`'s success/failure, and `now` for
`time.Now().String()`.  Go nil-pointer dereferences surface as
`Except.error PanicKind.nilDeref`.  The `Consume` loop together with the
concurrent downstream acknowledgments is modelled as the labelled transition
relation `Step`.
-/

namespace ConsumerSpec

/-- `domain.Events`: the payload decoded from a message body by
`json.Unmarshal`.  Only its `Message` field is read by the consumer
(`records.Message` at line 83); the rest of the payload is opaque and
elided. -/
structure DomainEvents where
  Message : String
deriving DecidableEq, Repr

/-- `entity.Events`: the database row built in `processMessage`
(lines 81–85): `ID = *msg.MessageId`, `Message = records.Message`,
`Date = time.Now().String()`. -/
structure EntityEvents where
  ID : String
  Message : String
  Date : String
deriving DecidableEq, Repr

/-- `*sqs.Message`: message identifier, body and attribute values are
`*string` in the AWS SDK, hence `Option String` here (`none` = nil
pointer).  `attributes` is the `map[string]*string`; an absent key is
modelled by the key not occurring in the association list. -/
structure SqsMessage where
  messageId : Option String
  body : Option String
  attributes : List (String × Option String)
  receiptHandle : Option String
deriving DecidableEq, Repr

/-- `sqs.MessageSystemAttributeNameApproximateReceiveCount`. -/
def attrReceiveCount : String := "ApproximateReceiveCount"

/-- Map lookup `msg.Attributes[k]`: `none` means the key is absent
(`ok = false` in Go), `some v` means the key maps to pointer `v`. -/
def lookupAttr (msg : SqsMessage) (k : String) : Option (Option String) :=
  (msg.attributes.find? (fun p => p.1 == k)).map Prod.snd

/-- The dynamic value stored in `domain.Event.OriginalEvent`
(an `interface{}` in Go): either an `*sqs.Message` or anything else.
`Processed` narrows it with a type assertion. -/
inductive OriginalRef where
  | sqsMessage (m : SqsMessage)
  | other
deriving DecidableEq, Repr

/-- `domain.Event`: the unit emitted on the output channel
(lines 91–97).  The `Log` field (a zap logger) is effect-only and is
modelled by the log entries of the action trace instead. -/
structure DomainEvent where
  ID : String
  Retry : String
  Records : DomainEvents
  OriginalEvent : OriginalRef
deriving DecidableEq, Repr

/-- Observable actions of the consumer, recorded in order in `Sys.trace`. -/
inductive Action where
  | logDebug
  | logError
  | logInfo
  | logWarn
  | persistAttempt (rec : EntityEvents)
  | persistErr (e : String)
  | wgAdd
  | emit (ev : DomainEvent)
  | deleteAttempt (m : SqsMessage)
  | deleteOk (m : SqsMessage)
  | deleteErr (e : String)
  | wgDone
  | closeOut
deriving DecidableEq, Repr

/-- Program counter of the `Consume` goroutine: `ready` = at the top of the
for-loop (about to check `closed` / poll), `waiting` = at `s.wg.Wait()`
after dispatching a batch, `stopped` = after `break` and `close(out)`. -/
inductive LoopPC where
  | ready
  | waiting
  | stopped
deriving DecidableEq, Repr

/-- The whole system state: the `SQSSource` fields that matter
(`closed`, the `sync.WaitGroup` counter `wg`), the database contents
(`store`), the external SQS queue contents (`queue`), the events sent on
the output channel so far (`emitted`), the action trace, and the loop's
program counter. -/
structure Sys where
  closed : Bool
  wg : Int
  store : List EntityEvents
  queue : List SqsMessage
  emitted : List DomainEvent
  trace : List Action
  pc : LoopPC
deriving DecidableEq, Repr

/-- gorm `Create` with `clause.OnConflict{UpdateAll: true}`: upsert keyed
by the primary key `ID` — overwrite the existing row, else append. -/
def upsertRecord (store : List EntityEvents) (rec : EntityEvents) :
    List EntityEvents :=
  if store.any (fun r => r.ID == rec.ID) then
    store.map (fun r => if r.ID == rec.ID then rec else r)
  else
    store ++ [rec]

/-- `insertMessage` (lines 104–113): attempt the upsert; on error the
store is unchanged (`r.Rollback()`) and the error is returned, on success
the store is updated and `nil` is returned.  `insertRes rec = some e`
models `r.Error = e`, `none` models success. -/
def insertMessage (insertRes : EntityEvents → Option String)
    (events : EntityEvents) (st : Sys) : Sys × Option String :=
  match insertRes events with
  | some e =>
      ({ st with trace := st.trace ++ [Action.persistAttempt events] }, some e)
  | none =>
      ({ st with store := upsertRecord st.store events,
                 trace := st.trace ++ [Action.persistAttempt events] }, none)

/-- Go nil-pointer dereference (would panic the goroutine). -/
inductive PanicKind where
  | nilDeref
deriving DecidableEq, Repr

/-- Lines 72–76: `retry := "0"`; if the `ApproximateReceiveCount`
attribute is present, dereference its value pointer. -/
def retryOf (msg : SqsMessage) : Except PanicKind String :=
  match lookupAttr msg attrReceiveCount with
  | none => Except.ok "0"
  | some none => Except.error PanicKind.nilDeref
  | some (some v) => Except.ok v

/-- The `entity.Events` row built at lines 81–85. -/
def mkEntity (mid : String) (records : DomainEvents) (now : String) :
    EntityEvents :=
  { ID := mid, Message := records.Message, Date := now }

/-- The `domain.Event` built at lines 91–97. -/
def mkEvent (mid retry : String) (records : DomainEvents)
    (msg : SqsMessage) : DomainEvent :=
  { ID := mid, Retry := retry, Records := records,
    OriginalEvent := OriginalRef.sqsMessage msg }

/-- Lines 87–89: call `insertMessage`; on error, log
(`logger.Infof("error in insertMessage: %v", err)`) and proceed. -/
def afterInsert (insertRes : EntityEvents → Option String)
    (rec : EntityEvents) (st : Sys) : Sys :=
  match insertMessage insertRes rec st with
  | (st', none) => st'
  | (st', some e) => { st' with trace := st'.trace ++ [Action.persistErr e] }

/-- Lines 98–100: `s.wg.Add(1)`, log "Event produced", `out <- event`. -/
def postEmit (ev : DomainEvent) (st : Sys) : Sys :=
  { st with wg := st.wg + 1,
            emitted := st.emitted ++ [ev],
            trace := st.trace ++ [Action.wgAdd, Action.logInfo, Action.emit ev] }

/-- The successfully-decoded tail of `processMessage` (lines 78–100):
log "Start to process", build the row, insert (best effort), build the
event, `wg.Add(1)` and emit. -/
def emitStage (insertRes : EntityEvents → Option String) (now : String)
    (msg : SqsMessage) (records : DomainEvents) (retry mid : String)
    (st : Sys) : Sys :=
  postEmit (mkEvent mid retry records msg)
    (afterInsert insertRes (mkEntity mid records now)
      { st with trace := st.trace ++ [Action.logInfo] })

/-- `processMessage` (lines 65–101).  Dereferences `*msg.Body` (line 67),
decodes it (`json.Unmarshal`, modelled by the `decode` parameter; on
error: log and return, line 68–71), computes `retry` (lines 72–76),
dereferences `*msg.MessageId` (line 82), and runs the persist/emit tail.
A nil dereference is `Except.error PanicKind.nilDeref`. -/
def processMessage (decode : String → Except String DomainEvents)
    (insertRes : EntityEvents → Option String) (now : String)
    (msg : SqsMessage) (st : Sys) : Except PanicKind Sys :=
  match msg.body with
  | none => Except.error PanicKind.nilDeref
  | some body =>
    match decode body with
    | Except.error _ =>
        Except.ok { st with trace := st.trace ++ [Action.logError] }
    | Except.ok records =>
      match retryOf msg with
      | Except.error pk => Except.error pk
      | Except.ok retry =>
        match msg.messageId with
        | none => Except.error PanicKind.nilDeref
        | some mid =>
            Except.ok (emitStage insertRes now msg records retry mid st)

/-- The inner `for _, msg := range messages` loop of `Consume`
(lines 53–55): run `processMessage` on each message in order. -/
def processBatch (decode : String → Except String DomainEvents)
    (insertRes : EntityEvents → Option String) (now : String) :
    List SqsMessage → Sys → Except PanicKind Sys
  | [], st => Except.ok st
  | m :: ms, st =>
    match processMessage decode insertRes now m st with
    | Except.error e => Except.error e
    | Except.ok st' => processBatch decode insertRes now ms st'

/-- `Processed` (lines 116–130).  `defer s.wg.Done()` runs on every path,
so every call decrements `wg` by one.  If `OriginalEvent` is an
`*sqs.Message`, attempt deletion: on failure log and return the error, on
success the message is removed from the external queue, log, return nil.
Otherwise log a warning and return nil without attempting deletion.
`deleteRes m = some e` models `sqs.DeleteMessage` failing with `e`. -/
def Processed (deleteRes : SqsMessage → Option String)
    (event : DomainEvent) (st : Sys) : Sys × Option String :=
  match event.OriginalEvent with
  | OriginalRef.sqsMessage m =>
    match deleteRes m with
    | some e =>
        ({ st with wg := st.wg - 1,
                   trace := st.trace ++
                     [Action.deleteAttempt m, Action.deleteErr e,
                      Action.wgDone] }, some e)
    | none =>
        ({ st with wg := st.wg - 1,
                   queue := st.queue.filter (fun q => decide (q ≠ m)),
                   trace := st.trace ++
                     [Action.deleteAttempt m, Action.deleteOk m,
                      Action.logInfo, Action.wgDone] }, none)
  | OriginalRef.other =>
      ({ st with wg := st.wg - 1,
                 trace := st.trace ++ [Action.logWarn, Action.wgDone] },
       none)

/-- The `if s.closed { break }` check at the top of the loop (lines
42–44): the loop continues only while `closed` is false. -/
def loopContinues (st : Sys) : Bool := !st.closed

/-- First statement of `Close` (line 134): `s.closed = true`. -/
def CloseSignal (st : Sys) : Sys := { st with closed := true }

/-- Second statement of `Close` (line 135): `s.wg.Wait()` returns exactly
when the WaitGroup counter is zero. -/
def closeUnblocked (st : Sys) : Prop := st.wg = 0

/-- Third statement of `Close` (line 136): `return nil`. -/
def CloseRet : Option String := none

/-- Transition labels of the whole system. -/
inductive Label where
  | poll (msgs : List SqsMessage)
  | pollErr
  | drain
  | ack (ev : DomainEvent)
  | closeSignal
  | stop
deriving DecidableEq, Repr

/-- Labelled transition relation: the `Consume` goroutine (poll a batch,
then wait at `wg.Wait()` until the counter is zero, then back to the top
of the loop; break when `closed`), concurrent downstream acknowledgments
(`Processed` on a previously emitted event), and the `Close` signal. -/
inductive Step (decode : String → Except String DomainEvents)
    (insertRes : EntityEvents → Option String)
    (deleteRes : SqsMessage → Option String) (now : String) :
    Sys → Label → Sys → Prop where
  | poll {st st' : Sys} (msgs : List SqsMessage) :
      st.pc = LoopPC.ready → loopContinues st = true →
      processBatch decode insertRes now msgs st = Except.ok st' →
      Step decode insertRes deleteRes now st (Label.poll msgs)
        { st' with pc := LoopPC.waiting }
  | pollErr {st : Sys} :
      st.pc = LoopPC.ready → loopContinues st = true →
      Step decode insertRes deleteRes now st Label.pollErr
        { st with trace := st.trace ++ [Action.logError] }
  | drain {st : Sys} :
      st.pc = LoopPC.waiting → st.wg = 0 →
      Step decode insertRes deleteRes now st Label.drain
        { st with pc := LoopPC.ready }
  | ack {st : Sys} (ev : DomainEvent) :
      ev ∈ st.emitted →
      Step decode insertRes deleteRes now st (Label.ack ev)
        (Processed deleteRes ev st).1
  | closeSignal {st : Sys} :
      Step decode insertRes deleteRes now st Label.closeSignal
        (CloseSignal st)
  | stop {st : Sys} :
      st.pc = LoopPC.ready → loopContinues st = false →
      Step decode insertRes deleteRes now st Label.stop
        { st with pc := LoopPC.stopped,
                  trace := st.trace ++ [Action.closeOut] }

/-- Number of `wg.Add(1)` calls recorded in a trace fragment. -/
def countAdds : List Action → Nat
  | [] => 0
  | Action.wgAdd :: l => countAdds l + 1
  | _ :: l => countAdds l

/-- Number of events sent on the output channel in a trace fragment. -/
def countEmits : List Action → Nat
  | [] => 0
  | Action.emit _ :: l => countEmits l + 1
  | _ :: l => countEmits l

/-- Number of `wg.Done()` calls recorded in a trace fragment. -/
def countDone : List Action → Nat
  | [] => 0
  | Action.wgDone :: l => countDone l + 1
  | _ :: l => countDone l

/-! ### Concrete fixtures used to evaluate the theorems on explicit inputs -/

/-- A concrete decoder: every body decodes except the literal `"bad"`. -/
def decode0 : String → Except String DomainEvents := fun s =>
  if s = "bad" then Except.error "invalid json" else Except.ok { Message := s }

/-- Database always succeeds. -/
def insOk : EntityEvents → Option String := fun _ => none

/-- Database always fails. -/
def insFail : EntityEvents → Option String := fun _ => some "db down"

/-- Deletion always succeeds. -/
def delOk : SqsMessage → Option String := fun _ => none

/-- Deletion always fails. -/
def delFail : SqsMessage → Option String := fun _ => some "delete failed"

/-- A message with a receive-count attribute of `"4"`. -/
def msgA : SqsMessage :=
  { messageId := some "m1", body := some "hello",
    attributes := [(attrReceiveCount, some "4")],
    receiptHandle := some "rh1" }

/-- A message with no receive-count attribute. -/
def msgB : SqsMessage :=
  { messageId := some "m2", body := some "world",
    attributes := [], receiptHandle := some "rh2" }

/-- A message whose body fails to decode under `decode0`. -/
def msgBad : SqsMessage :=
  { messageId := some "m3", body := some "bad",
    attributes := [], receiptHandle := some "rh3" }

/-- Initial system state: fresh consumer, two messages on the queue. -/
def st0 : Sys :=
  { closed := false, wg := 0, store := [], queue := [msgA, msgB],
    emitted := [], trace := [], pc := LoopPC.ready }

/-- The event `processMessage` emits for `msgA`. -/
def evA : DomainEvent :=
  { ID := "m1", Retry := "4", Records := { Message := "hello" },
    OriginalEvent := OriginalRef.sqsMessage msgA }

/-- An event whose back-reference is not an `*sqs.Message`. -/
def evOther : DomainEvent :=
  { ID := "x", Retry := "0", Records := { Message := "stray" },
    OriginalEvent := OriginalRef.other }

/-- A state with two units in flight, `evA` emitted, loop at `wg.Wait()`. -/
def stTwo : Sys :=
  { closed := false, wg := 2, store := [], queue := [msgA, msgB],
    emitted := [evA], trace := [], pc := LoopPC.waiting }

/-- The state after polling the batch `[msgA, msgBad, msgB]` from
`st0`. -/
def pollResult : Sys :=
  match processBatch decode0 insOk "T" [msgA, msgBad, msgB] st0 with
  | Except.ok s => s
  | Except.error _ => st0

/-- `pollResult` with the loop parked at `wg.Wait()`. -/
def sysPolled : Sys := { pollResult with pc := LoopPC.waiting }

/-- A drained state: loop at `wg.Wait()`, counter at zero. -/
def stDrain : Sys :=
  { closed := false, wg := 0, store := [], queue := [], emitted := [],
    trace := [], pc := LoopPC.waiting }

/-! ### Helper lemmas -/

theorem countAdds_append (l₁ l₂ : List Action) :
    countAdds (l₁ ++ l₂) = countAdds l₁ + countAdds l₂ := by
  induction l₁ with
  | nil => simp [countAdds]
  | cons a l ih => cases a <;> simp [countAdds, ih] <;> omega

theorem countEmits_append (l₁ l₂ : List Action) :
    countEmits (l₁ ++ l₂) = countEmits l₁ + countEmits l₂ := by
  induction l₁ with
  | nil => simp [countEmits]
  | cons a l ih => cases a <;> simp [countEmits, ih] <;> omega

/-- `Processed` when the back-reference is an `*sqs.Message` and deletion
succeeds (lines 120–126): the message leaves the queue, `wg.Done()` runs,
`nil` is returned. -/
theorem Processed_delOk (del : SqsMessage → Option String)
    (ev : DomainEvent) (st : Sys) (m : SqsMessage)
    (hO : ev.OriginalEvent = OriginalRef.sqsMessage m)
    (hd : del m = none) :
    Processed del ev st =
      ({ st with wg := st.wg - 1,
                 queue := st.queue.filter (fun q => decide (q ≠ m)),
                 trace := st.trace ++
                   [Action.deleteAttempt m, Action.deleteOk m,
                    Action.logInfo, Action.wgDone] }, none) := by
  simp [Processed, hO, hd]

/-- `Processed` when the back-reference is an `*sqs.Message` and deletion
fails (lines 121–124): `wg.Done()` still runs, the error is returned. -/
theorem Processed_delErr (del : SqsMessage → Option String)
    (ev : DomainEvent) (st : Sys) (m : SqsMessage) (e : String)
    (hO : ev.OriginalEvent = OriginalRef.sqsMessage m)
    (hd : del m = some e) :
    Processed del ev st =
      ({ st with wg := st.wg - 1,
                 trace := st.trace ++
                   [Action.deleteAttempt m, Action.deleteErr e,
                    Action.wgDone] }, some e) := by
  simp [Processed, hO, hd]

/-- `Processed` when the back-reference is not an `*sqs.Message`
(lines 128–129): warn, no deletion, `wg.Done()` runs, `nil` returned. -/
theorem Processed_notSqs (del : SqsMessage → Option String)
    (ev : DomainEvent) (st : Sys)
    (hO : ev.OriginalEvent = OriginalRef.other) :
    Processed del ev st =
      ({ st with wg := st.wg - 1,
                 trace := st.trace ++ [Action.logWarn, Action.wgDone] },
       none) := by
  simp [Processed, hO]

/-- `Processed` always decrements the WaitGroup counter by exactly one
(the deferred `wg.Done()`), records exactly one `wg.Done()` in the trace,
and leaves the loop pc, the closed flag, the emitted list and the store
untouched, on every branch. -/
theorem Processed_state (del : SqsMessage → Option String)
    (ev : DomainEvent) (st : Sys) :
    (Processed del ev st).1.pc = st.pc ∧
    (Processed del ev st).1.closed = st.closed ∧
    (Processed del ev st).1.emitted = st.emitted ∧
    (Processed del ev st).1.store = st.store ∧
    (Processed del ev st).1.wg = st.wg - 1 ∧
    ∃ tl, (Processed del ev st).1.trace = st.trace ++ tl ∧
      countDone tl = 1 := by
  cases hO : ev.OriginalEvent
  case sqsMessage m =>
    cases hd : del m
    case none =>
      rw [Processed_delOk del ev st m hO hd]
      exact ⟨rfl, rfl, rfl, rfl, rfl, _, rfl, rfl⟩
    case some e =>
      rw [Processed_delErr del ev st m e hO hd]
      exact ⟨rfl, rfl, rfl, rfl, rfl, _, rfl, rfl⟩
  case other =>
    rw [Processed_notSqs del ev st hO]
    exact ⟨rfl, rfl, rfl, rfl, rfl, _, rfl, rfl⟩

/-- `emitStage` when the upsert succeeds. -/
theorem emitStage_insOk (ins : EntityEvents → Option String) (now : String)
    (msg : SqsMessage) (recs : DomainEvents) (retry mid : String) (st : Sys)
    (hi : ins (mkEntity mid recs now) = none) :
    emitStage ins now msg recs retry mid st =
      { st with store := upsertRecord st.store (mkEntity mid recs now),
                wg := st.wg + 1,
                emitted := st.emitted ++ [mkEvent mid retry recs msg],
                trace := st.trace ++
                  [Action.logInfo,
                   Action.persistAttempt (mkEntity mid recs now),
                   Action.wgAdd, Action.logInfo,
                   Action.emit (mkEvent mid retry recs msg)] } := by
  simp [emitStage, afterInsert, insertMessage, postEmit, hi]

/-- `emitStage` when the upsert fails: the error is logged
(`persistErr`), the store is unchanged, and the event is still built,
counted and emitted. -/
theorem emitStage_insErr (ins : EntityEvents → Option String) (now : String)
    (msg : SqsMessage) (recs : DomainEvents) (retry mid : String) (st : Sys)
    (e : String) (hi : ins (mkEntity mid recs now) = some e) :
    emitStage ins now msg recs retry mid st =
      { st with wg := st.wg + 1,
                emitted := st.emitted ++ [mkEvent mid retry recs msg],
                trace := st.trace ++
                  [Action.logInfo,
                   Action.persistAttempt (mkEntity mid recs now),
                   Action.persistErr e,
                   Action.wgAdd, Action.logInfo,
                   Action.emit (mkEvent mid retry recs msg)] } := by
  simp [emitStage, afterInsert, insertMessage, postEmit, hi]

/-- `processMessage` on a message whose body fails to decode: log and
return with the state otherwise untouched. -/
theorem processMessage_decodeErr (decode : String → Except String DomainEvents)
    (ins : EntityEvents → Option String) (now : String)
    (msg : SqsMessage) (st : Sys) (b e : String)
    (hb : msg.body = some b) (hd : decode b = Except.error e) :
    processMessage decode ins now msg st =
      Except.ok { st with trace := st.trace ++ [Action.logError] } := by
  simp [processMessage, hb, hd]

/-- `processMessage` on a successfully decoded message reduces to
`emitStage`. -/
theorem processMessage_ok (decode : String → Except String DomainEvents)
    (ins : EntityEvents → Option String) (now : String)
    (msg : SqsMessage) (st : Sys) (b : String) (recs : DomainEvents)
    (retry mid : String)
    (hb : msg.body = some b) (hd : decode b = Except.ok recs)
    (hr : retryOf msg = Except.ok retry) (hm : msg.messageId = some mid) :
    processMessage decode ins now msg st =
      Except.ok (emitStage ins now msg recs retry mid st) := by
  simp [processMessage, hb, hd, hr, hm]

/-- Projections of `emitStage`: the event is emitted, the counter is
incremented by one, pc / closed / queue are untouched. -/
theorem emitStage_state (ins : EntityEvents → Option String) (now : String)
    (msg : SqsMessage) (recs : DomainEvents) (retry mid : String)
    (st : Sys) :
    (emitStage ins now msg recs retry mid st).pc = st.pc ∧
    (emitStage ins now msg recs retry mid st).closed = st.closed ∧
    (emitStage ins now msg recs retry mid st).queue = st.queue ∧
    (emitStage ins now msg recs retry mid st).emitted =
      st.emitted ++ [mkEvent mid retry recs msg] ∧
    (emitStage ins now msg recs retry mid st).wg = st.wg + 1 ∧
    ∃ tl, (emitStage ins now msg recs retry mid st).trace =
        st.trace ++ tl ∧
      countAdds tl = 1 ∧ countEmits tl = 1 := by
  cases hi : ins (mkEntity mid recs now)
  case none =>
    rw [emitStage_insOk ins now msg recs retry mid st hi]
    exact ⟨rfl, rfl, rfl, rfl, rfl, _, rfl, rfl, rfl⟩
  case some e =>
    rw [emitStage_insErr ins now msg recs retry mid st e hi]
    exact ⟨rfl, rfl, rfl, rfl, rfl, _, rfl, rfl, rfl⟩

/-- One `processMessage` call: pc / closed / queue untouched, the trace
grows by a fragment in which the number of `wg.Add(1)` calls equals the
number of emitted events, the counter grows by that number and the
emitted list by the same number of events. -/
theorem processMessage_delta (decode : String → Except String DomainEvents)
    (ins : EntityEvents → Option String) (now : String)
    (msg : SqsMessage) (st st' : Sys)
    (h : processMessage decode ins now msg st = Except.ok st') :
    st'.pc = st.pc ∧ st'.closed = st.closed ∧ st'.queue = st.queue ∧
    ∃ tl, st'.trace = st.trace ++ tl ∧ countAdds tl = countEmits tl ∧
      st'.wg = st.wg + (countAdds tl : Int) ∧
      st'.emitted.length = st.emitted.length + countEmits tl := by
  cases hb : msg.body
  case none => simp [processMessage, hb] at h
  case some b =>
    cases hd : decode b
    case error e =>
      rw [processMessage_decodeErr decode ins now msg st b e hb hd] at h
      cases h
      exact ⟨rfl, rfl, rfl, [Action.logError], rfl, rfl,
        by simp [countAdds], by simp [countEmits]⟩
    case ok recs =>
      cases hr : retryOf msg
      case error pk => simp [processMessage, hb, hd, hr] at h
      case ok retry =>
        cases hm : msg.messageId
        case none => simp [processMessage, hb, hd, hr, hm] at h
        case some mid =>
          rw [processMessage_ok decode ins now msg st b recs retry mid
            hb hd hr hm] at h
          cases h
          obtain ⟨hpc, hcl, hq, hem, hwg, tl, htr, ha, he⟩ :=
            emitStage_state ins now msg recs retry mid st
          refine ⟨hpc, hcl, hq, tl, htr, ?_, ?_, ?_⟩
          · rw [ha, he]
          · rw [hwg, ha]; norm_num
          · rw [hem, he]; simp

/-- A whole batch: pc / closed / queue untouched, `wg.Add` count equals
emitted-event count, and the counter and emitted list grow by exactly
that number. -/
theorem processBatch_delta (decode : String → Except String DomainEvents)
    (ins : EntityEvents → Option String) (now : String) :
    ∀ (msgs : List SqsMessage) (st st' : Sys),
      processBatch decode ins now msgs st = Except.ok st' →
      st'.pc = st.pc ∧ st'.closed = st.closed ∧ st'.queue = st.queue ∧
      ∃ tl, st'.trace = st.trace ++ tl ∧ countAdds tl = countEmits tl ∧
        st'.wg = st.wg + (countAdds tl : Int) ∧
        st'.emitted.length = st.emitted.length + countEmits tl := by
  intro msgs
  induction msgs with
  | nil =>
    intro st st' h
    cases h
    exact ⟨rfl, rfl, rfl, [], by simp, rfl, by simp [countAdds],
      by simp [countEmits]⟩
  | cons m ms ih =>
    intro st st' h
    cases hm : processMessage decode ins now m st
    case error e => simp [processBatch, hm] at h
    case ok st₁ =>
      have h₁ : processBatch decode ins now ms st₁ = Except.ok st' := by
        simpa [processBatch, hm] using h
      obtain ⟨hpc₁, hcl₁, hq₁, tl₁, htr₁, ha₁, hw₁, he₁⟩ :=
        processMessage_delta decode ins now m st st₁ hm
      obtain ⟨hpc₂, hcl₂, hq₂, tl₂, htr₂, ha₂, hw₂, he₂⟩ :=
        ih st₁ st' h₁
      refine ⟨hpc₂.trans hpc₁, hcl₂.trans hcl₁, hq₂.trans hq₁,
        tl₁ ++ tl₂, ?_, ?_, ?_, ?_⟩
      · rw [htr₂, htr₁, List.append_assoc]
      · rw [countAdds_append, countEmits_append, ha₁, ha₂]
      · rw [countAdds_append, hw₂, hw₁]; push_cast; ring
      · rw [countEmits_append, he₂, he₁]; ring

/-! ### Claim theorems -/

/-- C4: every call to `Processed` releases the in-flight tracker exactly
once — the WaitGroup counter drops by one and exactly one `wg.Done()` is
recorded — even when deleting the original message fails, and on deletion
failure the error is returned to the caller. -/
theorem c4 (del : SqsMessage → Option String) (ev : DomainEvent)
    (st : Sys) :
    (Processed del ev st).1.wg = st.wg - 1 ∧
    (∃ tl, (Processed del ev st).1.trace = st.trace ++ tl ∧
      countDone tl = 1) ∧
    (∀ m e, ev.OriginalEvent = OriginalRef.sqsMessage m →
      del m = some e → (Processed del ev st).2 = some e) := by
  obtain ⟨_, _, _, _, hwg, htl⟩ := Processed_state del ev st
  refine ⟨hwg, htl, ?_⟩
  intro m e hO hd
  rw [Processed_delErr del ev st m e hO hd]

/-- C4 witness: `Processed` on `evA` in `stTwo` with failing deletion
still decrements the counter and returns the deletion error. -/
theorem c4_witness :
    (Processed delFail evA stTwo).1.wg = stTwo.wg - 1 ∧
    (Processed delFail evA stTwo).2 = some "delete failed" :=
  ⟨(c4 delFail evA stTwo).1,
   (c4 delFail evA stTwo).2.2 msgA "delete failed" rfl rfl⟩

/-- C8: `Processed` on an event whose back-reference is not an
`*sqs.Message` logs a warning, attempts no deletion (the queue is
untouched and the trace fragment holds no delete action), returns `nil`,
and still releases the tracker once. -/
theorem c8 (del : SqsMessage → Option String) (ev : DomainEvent)
    (st : Sys) (hO : ev.OriginalEvent = OriginalRef.other) :
    (Processed del ev st).2 = none ∧
    (Processed del ev st).1.wg = st.wg - 1 ∧
    (Processed del ev st).1.queue = st.queue ∧
    (Processed del ev st).1.trace =
      st.trace ++ [Action.logWarn, Action.wgDone] := by
  rw [Processed_notSqs del ev st hO]
  exact ⟨rfl, rfl, rfl, rfl⟩

/-- C8 witness: the defensive branch evaluated on `evOther`. -/
theorem c8_witness :
    (Processed delOk evOther stTwo).2 = none ∧
    (Processed delOk evOther stTwo).1.wg = stTwo.wg - 1 ∧
    (Processed delOk evOther stTwo).1.queue = stTwo.queue ∧
    (Processed delOk evOther stTwo).1.trace =
      stTwo.trace ++ [Action.logWarn, Action.wgDone] :=
  c8 delOk evOther stTwo rfl

/-- C3 counterexample: acknowledging the same event `evA` twice releases
the tracker twice — from `wg = 2` the first `Processed` call leaves
`wg = 1` and the second leaves `wg = 0`, refuting "a second
acknowledgment of the same event does not release the tracker a second
time": `Processed` has no guard against double acknowledgment. -/
theorem c3_cex :
    (Processed delOk evA stTwo).1.wg = 1 ∧
    (Processed delOk evA (Processed delOk evA stTwo).1).1.wg = 0 := by
  decide

/-- C3 (amended): acknowledging a DomainEvent with successful deletion
removes the message from the queue and releases the tracker exactly once
per call; but the code does not guard double acknowledgment — a second
`Processed` call on the same event releases the tracker again. -/
theorem c3 (del : SqsMessage → Option String) (ev : DomainEvent)
    (st : Sys) (m : SqsMessage)
    (hO : ev.OriginalEvent = OriginalRef.sqsMessage m)
    (hd : del m = none) :
    m ∉ (Processed del ev st).1.queue ∧
    (Processed del ev st).1.wg = st.wg - 1 ∧
    (∃ tl, (Processed del ev st).1.trace = st.trace ++ tl ∧
      countDone tl = 1) ∧
    (Processed del ev (Processed del ev st).1).1.wg = st.wg - 2 := by
  have h1 := Processed_delOk del ev st m hO hd
  refine ⟨?_, ?_, ?_, ?_⟩
  · rw [h1]; simp [List.mem_filter]
  · rw [h1]
  · rw [h1]; exact ⟨_, rfl, rfl⟩
  · rw [h1, Processed_delOk del ev _ m hO hd]; simp; ring

/-- C3 witness: the amended claim evaluated on `evA` in `stTwo`. -/
theorem c3_witness :
    msgA ∉ (Processed delOk evA stTwo).1.queue ∧
    (Processed delOk evA stTwo).1.wg = stTwo.wg - 1 ∧
    (∃ tl, (Processed delOk evA stTwo).1.trace = stTwo.trace ++ tl ∧
      countDone tl = 1) ∧
    (Processed delOk evA (Processed delOk evA stTwo).1).1.wg =
      stTwo.wg - 2 :=
  c3 delOk evA stTwo msgA rfl rfl

/-- C5: a message whose body fails to decode is skipped for the cycle —
no record is stored, no event is emitted, the tracker is not incremented,
the queue (hence the message) is untouched, and the only effect is an
error log; the pipeline returns normally so the loop continues with the
next message. -/
theorem c5 (decode : String → Except String DomainEvents)
    (ins : EntityEvents → Option String) (now : String)
    (msg : SqsMessage) (st : Sys) (b e : String)
    (hb : msg.body = some b) (hd : decode b = Except.error e) :
    ∃ st', processMessage decode ins now msg st = Except.ok st' ∧
      st'.store = st.store ∧ st'.emitted = st.emitted ∧
      st'.wg = st.wg ∧ st'.queue = st.queue ∧
      st'.trace = st.trace ++ [Action.logError] :=
  ⟨_, processMessage_decodeErr decode ins now msg st b e hb hd,
   rfl, rfl, rfl, rfl, rfl⟩

/-- C5 witness: the malformed message `msgBad` evaluated from `st0`. -/
theorem c5_witness :
    ∃ st', processMessage decode0 insOk "T" msgBad st0 = Except.ok st' ∧
      st'.store = st0.store ∧ st'.emitted = st0.emitted ∧
      st'.wg = st0.wg ∧ st'.queue = st0.queue ∧
      st'.trace = st0.trace ++ [Action.logError] :=
  c5 decode0 insOk "T" msgBad st0 "bad" "invalid json" rfl rfl

/-- C6: for a successfully decoded message, a failing upsert is
non-fatal — the error is logged (`persistErr`) and the pipeline still
builds the DomainEvent, increments the tracker (`wgAdd`) and emits it;
the store stays unchanged (all other fields are inherited from `st`). -/
theorem c6 (decode : String → Except String DomainEvents)
    (ins : EntityEvents → Option String) (now : String)
    (msg : SqsMessage) (st : Sys) (b : String) (recs : DomainEvents)
    (retry mid e : String)
    (hb : msg.body = some b) (hd : decode b = Except.ok recs)
    (hr : retryOf msg = Except.ok retry) (hm : msg.messageId = some mid)
    (hi : ins (mkEntity mid recs now) = some e) :
    processMessage decode ins now msg st = Except.ok
      { st with wg := st.wg + 1,
                emitted := st.emitted ++ [mkEvent mid retry recs msg],
                trace := st.trace ++
                  [Action.logInfo,
                   Action.persistAttempt (mkEntity mid recs now),
                   Action.persistErr e,
                   Action.wgAdd, Action.logInfo,
                   Action.emit (mkEvent mid retry recs msg)] } := by
  rw [processMessage_ok decode ins now msg st b recs retry mid hb hd hr hm,
      emitStage_insErr ins now msg recs retry mid st e hi]

/-- C6 witness: `msgA` processed with an always-failing database. -/
theorem c6_witness :
    processMessage decode0 insFail "T" msgA st0 = Except.ok
      { st0 with wg := st0.wg + 1,
                 emitted := st0.emitted ++
                   [mkEvent "m1" "4" { Message := "hello" } msgA],
                 trace := st0.trace ++
                   [Action.logInfo,
                    Action.persistAttempt
                      (mkEntity "m1" { Message := "hello" } "T"),
                    Action.persistErr "db down",
                    Action.wgAdd, Action.logInfo,
                    Action.emit
                      (mkEvent "m1" "4" { Message := "hello" } msgA)] } :=
  c6 decode0 insFail "T" msgA st0 "hello" { Message := "hello" }
    "4" "m1" "db down" rfl rfl rfl rfl rfl

/-- C7: for a successfully decoded message the emitted event's `Retry`
field is the receive-count attribute value when the attribute is present,
and `"0"` when it is absent. -/
theorem c7 (decode : String → Except String DomainEvents)
    (ins : EntityEvents → Option String) (now : String)
    (msg : SqsMessage) (st : Sys) (b : String) (recs : DomainEvents)
    (mid : String)
    (hb : msg.body = some b) (hd : decode b = Except.ok recs)
    (hm : msg.messageId = some mid) :
    (lookupAttr msg attrReceiveCount = none →
      ∃ st', processMessage decode ins now msg st = Except.ok st' ∧
        st'.emitted = st.emitted ++ [mkEvent mid "0" recs msg] ∧
        (mkEvent mid "0" recs msg).Retry = "0") ∧
    (∀ v, lookupAttr msg attrReceiveCount = some (some v) →
      ∃ st', processMessage decode ins now msg st = Except.ok st' ∧
        st'.emitted = st.emitted ++ [mkEvent mid v recs msg] ∧
        (mkEvent mid v recs msg).Retry = v) := by
  constructor
  · intro ha
    have hr : retryOf msg = Except.ok "0" := by simp [retryOf, ha]
    exact ⟨_,
      processMessage_ok decode ins now msg st b recs "0" mid hb hd hr hm,
      (emitStage_state ins now msg recs "0" mid st).2.2.2.1, rfl⟩
  · intro v ha
    have hr : retryOf msg = Except.ok v := by simp [retryOf, ha]
    exact ⟨_,
      processMessage_ok decode ins now msg st b recs v mid hb hd hr hm,
      (emitStage_state ins now msg recs v mid st).2.2.2.1, rfl⟩

/-- C7 witness: `msgB` (no attribute) yields retry `"0"`, `msgA`
(attribute `"4"`) yields retry `"4"`. -/
theorem c7_witness :
    (∃ st', processMessage decode0 insOk "T" msgB st0 = Except.ok st' ∧
      st'.emitted = st0.emitted ++
        [mkEvent "m2" "0" { Message := "world" } msgB] ∧
      (mkEvent "m2" "0" { Message := "world" } msgB).Retry = "0") ∧
    (∃ st', processMessage decode0 insOk "T" msgA st0 = Except.ok st' ∧
      st'.emitted = st0.emitted ++
        [mkEvent "m1" "4" { Message := "hello" } msgA] ∧
      (mkEvent "m1" "4" { Message := "hello" } msgA).Retry = "4") :=
  ⟨(c7 decode0 insOk "T" msgB st0 "world" { Message := "world" } "m2"
      rfl rfl rfl).1 rfl,
   (c7 decode0 insOk "T" msgA st0 "hello" { Message := "hello" } "m1"
      rfl rfl rfl).2 "4" rfl⟩

/-- C2: for a successfully decoded message, the upsert of the record
keyed by the message identifier is attempted strictly before the
DomainEvent (carrying the same identifier) is emitted: the trace ends
with the emission and the persist attempt lies in the fragment before
it. -/
theorem c2 (decode : String → Except String DomainEvents)
    (ins : EntityEvents → Option String) (now : String)
    (msg : SqsMessage) (st : Sys) (b : String) (recs : DomainEvents)
    (retry mid : String)
    (hb : msg.body = some b) (hd : decode b = Except.ok recs)
    (hr : retryOf msg = Except.ok retry) (hm : msg.messageId = some mid) :
    ∃ st' tl,
      processMessage decode ins now msg st = Except.ok st' ∧
      st'.trace = st.trace ++ tl ++
        [Action.emit (mkEvent mid retry recs msg)] ∧
      Action.persistAttempt (mkEntity mid recs now) ∈ tl ∧
      (mkEntity mid recs now).ID = mid ∧
      (mkEvent mid retry recs msg).ID = mid := by
  cases hi : ins (mkEntity mid recs now)
  case none =>
    refine ⟨_, [Action.logInfo,
        Action.persistAttempt (mkEntity mid recs now),
        Action.wgAdd, Action.logInfo],
      processMessage_ok decode ins now msg st b recs retry mid hb hd hr hm,
      ?_, ?_, rfl, rfl⟩
    · rw [emitStage_insOk ins now msg recs retry mid st hi]; simp
    · simp
  case some e =>
    refine ⟨_, [Action.logInfo,
        Action.persistAttempt (mkEntity mid recs now),
        Action.persistErr e, Action.wgAdd, Action.logInfo],
      processMessage_ok decode ins now msg st b recs retry mid hb hd hr hm,
      ?_, ?_, rfl, rfl⟩
    · rw [emitStage_insErr ins now msg recs retry mid st e hi]; simp
    · simp

/-- C2 witness: the persist-before-emit ordering evaluated on `msgA`. -/
theorem c2_witness :
    ∃ st' tl,
      processMessage decode0 insOk "T" msgA st0 = Except.ok st' ∧
      st'.trace = st0.trace ++ tl ++
        [Action.emit (mkEvent "m1" "4" { Message := "hello" } msgA)] ∧
      Action.persistAttempt (mkEntity "m1" { Message := "hello" } "T")
        ∈ tl ∧
      (mkEntity "m1" { Message := "hello" } "T").ID = "m1" ∧
      (mkEvent "m1" "4" { Message := "hello" } msgA).ID = "m1" :=
  c2 decode0 insOk "T" msgA st0 "hello" { Message := "hello" } "4" "m1"
    rfl rfl rfl rfl

/-- C10: the per-message pipeline dereferences `*msg.Body`,
`*msg.MessageId` and, when present, the attribute value pointer without
nil checks; when these pointers are non-nil the nil-dereference branch
(`Except.error PanicKind.nilDeref`) is unreachable and `processMessage`
returns normally. -/
theorem c10 (decode : String → Except String DomainEvents)
    (ins : EntityEvents → Option String) (now : String)
    (msg : SqsMessage) (st : Sys)
    (hb : msg.body ≠ none) (hm : msg.messageId ≠ none)
    (ha : ∀ v, lookupAttr msg attrReceiveCount = some v → v ≠ none) :
    ∃ st', processMessage decode ins now msg st = Except.ok st' := by
  obtain ⟨b, hb'⟩ := Option.ne_none_iff_exists'.mp hb
  obtain ⟨mid, hm'⟩ := Option.ne_none_iff_exists'.mp hm
  cases hd : decode b
  case error e =>
    exact ⟨_, processMessage_decodeErr decode ins now msg st b e hb' hd⟩
  case ok recs =>
    have hr : ∃ retry, retryOf msg = Except.ok retry := by
      cases hA : lookupAttr msg attrReceiveCount
      case none => exact ⟨"0", by simp [retryOf, hA]⟩
      case some v =>
        cases v
        case none => exact absurd rfl (ha none hA)
        case some s => exact ⟨s, by simp [retryOf, hA]⟩
    obtain ⟨retry, hr⟩ := hr
    exact ⟨_, processMessage_ok decode ins now msg st b recs retry mid
      hb' hd hr hm'⟩

/-- C10 witness: `msgA` has non-nil body, identifier and attribute
value, so processing it from `st0` returns normally. -/
theorem c10_witness :
    ∃ st', processMessage decode0 insOk "T" msgA st0 = Except.ok st' :=
  c10 decode0 insOk "T" msgA st0 (by decide) (by decide)
    (by
      intro v h
      rw [show lookupAttr msgA attrReceiveCount = some (some "4")
        from rfl] at h
      cases h
      decide)

/-- C1: (a) a poll transition starts from the top of the loop and parks
the loop at `wg.Wait()`, and over the polled batch the number of
`wg.Add(1)` calls equals the number of emitted events, the counter grows
by exactly that number and so does the emitted list; (b) from the
`wg.Wait()` position the loop can only return to the top of the loop —
where the next poll happens — via a transition that requires the tracker
to be zero, so no further poll occurs until every increment has been
released. -/
theorem c1 (decode : String → Except String DomainEvents)
    (ins : EntityEvents → Option String)
    (del : SqsMessage → Option String) (now : String) :
    (∀ st msgs st',
      Step decode ins del now st (Label.poll msgs) st' →
      st.pc = LoopPC.ready ∧ st'.pc = LoopPC.waiting ∧
      ∃ tl, st'.trace = st.trace ++ tl ∧ countAdds tl = countEmits tl ∧
        st'.wg = st.wg + (countAdds tl : Int) ∧
        st'.emitted.length = st.emitted.length + countEmits tl) ∧
    (∀ st l st',
      Step decode ins del now st l st' →
      st.pc = LoopPC.waiting → st'.pc = LoopPC.ready → st.wg = 0) := by
  constructor
  · intro st msgs st' h
    cases h with
    | poll msgs hpc hcl hbatch =>
      obtain ⟨hpc', hcl', hq', tl, htr, hae, hwg, hem⟩ :=
        processBatch_delta decode ins now msgs st _ hbatch
      exact ⟨hpc, rfl, tl, htr, hae, hwg, hem⟩
  · intro st l st' h hw hr
    cases h with
    | poll msgs hpc hcl hbatch => simp [hpc] at hw
    | pollErr hpc hcl => simp [hpc] at hw
    | drain hpc hz => exact hz
    | ack ev hev =>
      rw [(Processed_state del ev st).1] at hr
      rw [hw] at hr
      cases hr
    | closeSignal => simp [CloseSignal, hw] at hr
    | stop hpc hcl => simp [hpc] at hw

/-- C1 witness: polling the batch `[msgA, msgBad, msgB]` from `st0`
(two decodable messages, one malformed), and a drain transition from
`stDrain`. -/
theorem c1_witness :
    (st0.pc = LoopPC.ready ∧ sysPolled.pc = LoopPC.waiting ∧
      ∃ tl, sysPolled.trace = st0.trace ++ tl ∧
        countAdds tl = countEmits tl ∧
        sysPolled.wg = st0.wg + (countAdds tl : Int) ∧
        sysPolled.emitted.length =
          st0.emitted.length + countEmits tl) ∧
    stDrain.wg = 0 :=
  ⟨(c1 decode0 insOk delOk "T").1 st0 [msgA, msgBad, msgB] sysPolled
      (Step.poll [msgA, msgBad, msgB] rfl rfl rfl),
   (c1 decode0 insOk delOk "T").2 stDrain Label.drain
      { stDrain with pc := LoopPC.ready }
      (Step.drain rfl rfl) rfl rfl⟩

/-- C9: `Close` sets the `closed` flag (so the loop-top check fails and
the loop stops polling), does not itself change the tracker, its
`wg.Wait()` unblocks exactly when the tracker is zero, it returns `nil`,
a second `Close` on an already-closed consumer changes nothing, and once
the signal is seen at the top of the loop the stop transition (break and
`close(out)`) is enabled. -/
theorem c9 (decode : String → Except String DomainEvents)
    (ins : EntityEvents → Option String)
    (del : SqsMessage → Option String) (now : String) (st : Sys) :
    (CloseSignal st).closed = true ∧
    loopContinues (CloseSignal st) = false ∧
    (CloseSignal st).wg = st.wg ∧
    (closeUnblocked (CloseSignal st) ↔ (CloseSignal st).wg = 0) ∧
    CloseRet = none ∧
    CloseSignal (CloseSignal st) = CloseSignal st ∧
    (st.pc = LoopPC.ready →
      Step decode ins del now (CloseSignal st) Label.stop
        { CloseSignal st with
          pc := LoopPC.stopped,
          trace := (CloseSignal st).trace ++ [Action.closeOut] }) := by
  refine ⟨rfl, rfl, rfl, Iff.rfl, rfl, rfl, ?_⟩
  intro hpc
  exact Step.stop (by simp [CloseSignal, hpc]) rfl

/-- C9 witness: closing from `st0` — flag set and stop transition
enabled. -/
theorem c9_witness :
    (CloseSignal st0).closed = true ∧
    Step decode0 insOk delOk "T" (CloseSignal st0) Label.stop
      { CloseSignal st0 with
        pc := LoopPC.stopped,
        trace := (CloseSignal st0).trace ++ [Action.closeOut] } :=
  ⟨(c9 decode0 insOk delOk "T" st0).1,
   (c9 decode0 insOk delOk "T" st0).2.2.2.2.2.2 rfl⟩

end ConsumerSpec
